import Mathlib

/-!
Verification of the core logic of a React month-calendar widget
(event recurrence matching, schedule-conflict detection, drag relocation,
form validation), shallowly embedded from the TypeScript source
(`MonthlyCalendar`, `Home`, `EventForm`).

Dates: the source manipulates JavaScript `Date` values in local time.  We
embed a `Date` as a Gregorian civil date (year, month 1..12, day of month)
plus a millisecond offset within the day.  `getTime` and day arithmetic use
the standard civil-date <-> epoch-day conversion (Gregorian calendar,
epoch day 0 = 1970-01-01); daylight-saving shifts and timezones are outside
the model, matching the spec's stated scope (single local calendar).
-/

namespace Calendar

/-- Epoch-day number of a civil date (Gregorian; 1970-01-01 ↦ 0).
`m` is 1-based.  Standard civil-from-days algorithm with floor division. -/
def daysFromCivil (y m d : Int) : Int :=
  let y' := if m ≤ 2 then y - 1 else y
  let era := Int.fdiv y' 400
  let yoe := y' - era * 400
  let mp := if m > 2 then m - 3 else m + 9
  let doy := Int.fdiv (153 * mp + 2) 5 + d - 1
  let doe := yoe * 365 + Int.fdiv yoe 4 - Int.fdiv yoe 100 + doy
  era * 146097 + doe - 719468

/-- Civil date (year, month 1..12, day 1..31) of an epoch-day number. -/
def civilFromDays (z : Int) : Int × Int × Int :=
  let z' := z + 719468
  let era := Int.fdiv z' 146097
  let doe := z' - era * 146097
  let yoe := Int.fdiv (doe - Int.fdiv doe 1460 + Int.fdiv doe 36524 - Int.fdiv doe 146096) 365
  let y := yoe + era * 400
  let doy := doe - (365 * yoe + Int.fdiv yoe 4 - Int.fdiv yoe 100)
  let mp := Int.fdiv (5 * doy + 2) 153
  let d := doy - Int.fdiv (153 * mp + 2) 5 + 1
  let m := if mp < 10 then mp + 3 else mp - 9
  (if m ≤ 2 then y + 1 else y, m, d)

/-- Gregorian leap-year test (JS `Date` calendar). -/
def isLeapYear (y : Int) : Bool := (y % 4 = 0 && y % 100 ≠ 0) || y % 400 = 0

/-- Number of days in a civil month (JS `Date` calendar). -/
def daysInMonth (y m : Int) : Int :=
  if m = 2 then (if isLeapYear y then 29 else 28)
  else if m = 4 ∨ m = 6 ∨ m = 9 ∨ m = 11 then 30
  else 31

/-- A JavaScript `Date` value: civil date plus milliseconds since local
midnight (`0 ≤ msOfDay < 86400000` for values the runtime produces). -/
structure Date where
  year : Int
  month : Int
  day : Int
  msOfDay : Int
deriving DecidableEq, Repr

/-- Epoch-day number of a `Date`'s civil day. -/
def Date.epochDay (dt : Date) : Int := daysFromCivil dt.year dt.month dt.day

/-- JS `Date.prototype.getTime` (milliseconds since the epoch). -/
def Date.getTime (dt : Date) : Int := dt.epochDay * 86400000 + dt.msOfDay

/-- date-fns `isSameDay`: same local year, month and day-of-month,
independent of time-of-day. -/
def isSameDay (a b : Date) : Bool :=
  a.year = b.year && a.month = b.month && a.day = b.day

/-- date-fns `format(day, "EEEE")`: the English weekday name.
Epoch day 0 (1970-01-01) is a Thursday. -/
def dayName (dt : Date) : String :=
  match (Int.emod dt.epochDay 7).toNat with
  | 0 => "Thursday"
  | 1 => "Friday"
  | 2 => "Saturday"
  | 3 => "Sunday"
  | 4 => "Monday"
  | 5 => "Tuesday"
  | _ => "Wednesday"

/-- JS `Math.round(a / b)` for integers `a`, `b` with `b > 0`
(round half toward positive infinity: `floor(a/b + 1/2)`). -/
def jsRoundDiv (a b : Int) : Int := Int.fdiv (2 * a + b) (2 * b)

/-- JS `Math.ceil(a / b)` for integers `a`, `b` with `b > 0`. -/
def jsCeilDiv (a b : Int) : Int := -(Int.fdiv (-a) b)

/-- `d.setDate(d.getDate() + n)`: shift a date by `n` whole calendar days
(month/year rollover as in JS), preserving the time of day. -/
def Date.addDays (dt : Date) (n : Int) : Date :=
  let c := civilFromDays (dt.epochDay + n)
  { year := c.1, month := c.2.1, day := c.2.2, msOfDay := dt.msOfDay }

/-- Signed whole-day difference between the calendar days of two dates,
ignoring time-of-day (the spec's `dayDelta`). -/
def dayDelta (a b : Date) : Int := b.epochDay - a.epochDay

end Calendar

namespace CalendarApp

open Calendar

/-- The `recurrence` record of an event.  `type` is a runtime string (data
loaded from storage is not constrained to the TS literal union). -/
structure Recurrence where
  type : String
  days : Option (List String)
  interval : Option Int
  endDate : Option Date
deriving DecidableEq, Repr

/-- An `Event` record of the calendar. -/
structure Event where
  id : String
  title : String
  date : Date
  startTime : String
  endTime : String
  description : Option String
  color : Option String
  recurrence : Option Recurrence
deriving DecidableEq, Repr

/-- The per-event predicate of `getEventsForDay` in `MonthlyCalendar`:
does `event` occur on (the grid cell) `day`? -/
def occursOn (event : Event) (day : Date) : Bool :=
  match event.recurrence with
  | none => isSameDay event.date day
  | some r =>
    if r.type = "none" then isSameDay event.date day
    else if r.type = "daily" then true
    else if r.type = "weekly" then
      match r.days with
      | some ds =>
        if ds.length > 0 then ds.contains (dayName day)
        else isSameDay event.date day
      | none => isSameDay event.date day
    else if r.type = "monthly" then day.day = event.date.day
    else if r.type = "custom" then
      match r.interval with
      | some v =>
        if v > 0 then
          let diffInDays := jsRoundDiv (day.getTime - event.date.getTime) 86400000
          let diffInWeeks := Int.fdiv diffInDays 7
          Int.tmod diffInWeeks v = 0
        else false
      | none => false
    else isSameDay event.date day

/-- `getEventsForDay` in `MonthlyCalendar`: the events occurring on `day`. -/
def getEventsForDay (events : List Event) (day : Date) : List Event :=
  events.filter (fun event => occursOn event day)

/-- JS whitespace stripped by `Number(s)`. -/
def isJsWhitespace (c : Char) : Bool :=
  c = ' ' || c = '\t' || c = '\n' || c = '\r'

/-- Strip leading and trailing whitespace from a character list. -/
def trimChars (cs : List Char) : List Char :=
  ((cs.dropWhile isJsWhitespace).reverse.dropWhile isJsWhitespace).reverse

/-- Parse a non-empty all-digit character list as a natural number. -/
def digitsToNat (cs : List Char) : Option Nat :=
  if cs ≠ [] && cs.all Char.isDigit then
    some (cs.foldl (fun a c => a * 10 + (c.toNat - 48)) 0)
  else none

/-- JS `Number(s)` restricted to integer-literal strings: leading/trailing
whitespace is stripped, the empty string is `0`, an optional sign followed
by decimal digits is that integer, anything else is NaN (`none`).
Fractional, hexadecimal and exponent forms of JS numbers are outside the
model (time strings are always `"HH:MM"` digits). -/
def jsNumber (s : String) : Option Int :=
  match trimChars s.data with
  | [] => some 0
  | '-' :: rest => (digitsToNat rest).map (fun n => -(n : Int))
  | '+' :: rest => (digitsToNat rest).map (fun n => (n : Int))
  | t => (digitsToNat t).map (fun n => (n : Int))

/-- Splitting accumulator for `jsSplitColon`. -/
def splitColonAux : List Char → List Char → List String
  | [], acc => [String.mk acc.reverse]
  | c :: cs, acc =>
    if c = ':' then String.mk acc.reverse :: splitColonAux cs []
    else splitColonAux cs (c :: acc)

/-- JS `s.split(":")`: the colon-separated fields, in order (the empty
string splits to `[""]`, as in JS). -/
def jsSplitColon (s : String) : List String := splitColonAux s.data []

/-- `timeToMinutes` in `Home`: `time.split(":")`, `Number` on the first two
fields, `hours * 60 + minutes`.  `none` models a NaN result (a missing or
non-numeric field); the function itself never throws. -/
def timeToMinutes (time : String) : Option Int :=
  let parts := jsSplitColon time
  let hours := match parts.get? 0 with | some s => jsNumber s | none => none
  let minutes := match parts.get? 1 with | some s => jsNumber s | none => none
  match hours, minutes with
  | some h, some m => some (h * 60 + m)
  | _, _ => none

/-- JS `<` on numbers where `none` models NaN: any comparison with NaN is
false. -/
def numLt (a b : Option Int) : Bool :=
  match a, b with
  | some x, some y => x < y
  | _, _ => false

/-- The overlap test shared by both conflict checkers in `Home`:
`eventStart < existingEnd && eventEnd > existingStart` on minute offsets. -/
def timesOverlap (cand existing : Event) : Bool :=
  numLt (timeToMinutes cand.startTime) (timeToMinutes existing.endTime) &&
  numLt (timeToMinutes existing.startTime) (timeToMinutes cand.endTime)

/-- Same-calendar-day test used by the conflict checkers in `Home`
(`getFullYear`/`getMonth`/`getDate` equality). -/
def sameDate (a b : Date) : Bool :=
  a.year = b.year && a.month = b.month && a.day = b.day

/-- `checkForEventConflicts` in `Home` (form-save path): filter the stored
events to those on the candidate's calendar day, skipping the candidate's
own id when editing (`isNewEvent = false`), then test time overlap. -/
def checkForEventConflicts (events : List Event) (isNewEvent : Bool)
    (eventData : Event) : Bool :=
  let eventsOnSameDate := events.filter (fun e =>
    if !isNewEvent && e.id = eventData.id then false
    else sameDate e.date eventData.date)
  eventsOnSameDate.any (fun e => timesOverlap eventData e)

/-- `checkForConflicts` in `Home` (drag path): filter the stored events to
those on the target calendar day, always skipping the dragged event's own
id, then test time overlap against the dragged event's own times. -/
def checkForConflicts (events : List Event) (event : Event)
    (targetDate : Date) : Bool :=
  let eventsOnTargetDate := events.filter (fun e =>
    if e.id = event.id then false
    else sameDate e.date targetDate)
  eventsOnTargetDate.any (fun e => timesOverlap event e)

/-- `updateEventDate` in `Home`: shift the matching event's date by
`Math.ceil((newDate - event.date) / dayMs)` whole days via
`setDate(getDate() + diffDays)`; all other fields are spread unchanged. -/
def updateEventDate (events : List Event) (eventId : String)
    (newDate : Date) : List Event :=
  events.map (fun event =>
    if event.id = eventId then
      let diffDays := jsCeilDiv (newDate.getTime - event.date.getTime) 86400000
      { event with date := event.date.addDays diffDays }
    else event)

/-- `handleAddEvent` in `MonthlyCalendar`: in edit mode with a selected
event, replace the entry whose id equals the *selected* event's id;
otherwise append, minting `freshId` (`Date.now().toString()`) only when the
incoming record has no id. -/
def handleAddEvent (localEvents : List Event) (isEditMode : Bool)
    (selectedEvent : Option Event) (freshId : String)
    (eventData : Event) : List Event :=
  match isEditMode, selectedEvent with
  | true, some se =>
    localEvents.map (fun e => if e.id = se.id then eventData else e)
  | _, _ =>
    localEvents ++
      [{ eventData with id := if eventData.id = "" then freshId else eventData.id }]

/-- The internal (no host `onDragEvent`) drop handler in `MonthlyCalendar`:
find the dragged event, replace its whole `date` field with the drop day,
and hand the result to `handleAddEvent`.  No conflict check is consulted. -/
def onDropSelf (eventsToUse localEvents : List Event) (isEditMode : Bool)
    (selectedEvent : Option Event) (freshId : String)
    (eventId : String) (date : Date) : List Event :=
  match eventsToUse.find? (fun e => e.id = eventId) with
  | some event =>
    handleAddEvent localEvents isEditMode selectedEvent freshId
      { event with date := date }
  | none => localEvents

end CalendarApp

namespace EventFormNS

open Calendar

/-- The state validated by `EventForm` (`EventData` plus the possibility of
an absent date, which the validation guards against). -/
structure FormState where
  title : String
  date : Option Date
  startTime : String
  endTime : String
  rtype : String
  days : Option (List String)
  interval : Option Int
deriving DecidableEq, Repr

/-- `validateForm` in `EventForm`: the ordered chain of checks; `some msg`
is the first failure's message, `none` means valid.  JS `>=` on the time
strings is lexicographic string comparison, `!interval` is falsy for a
missing interval and for `0`. -/
def validateForm (ev : FormState) : Option String :=
  if ev.title.trim = "" then some "Event title is required"
  else if ev.date = none then some "Event date is required"
  else if ev.startTime = "" then some "Start time is required"
  else if ev.endTime = "" then some "End time is required"
  else if ev.endTime ≤ ev.startTime then
    some "End time must be after start time"
  else if ev.rtype = "weekly" ∧ (ev.days = none ∨ ev.days = some []) then
    some "Please select at least one day for weekly recurrence"
  else if ev.rtype = "custom" ∧ ev.interval.getD 0 < 1 then
    some "Custom recurrence interval must be at least 1"
  else none

/-- `handleSave` in `EventForm`: the save is forwarded to `onSave` exactly
when `validateForm` reports no failure (the local `hasConflict` flag is the
constant `false`). -/
def saveProceeds (ev : FormState) : Bool := (validateForm ev).isNone

/-- The validation rules in the order `validateForm` checks them, each with
its message: a direct rendering of the spec's rule list. -/
def validationRules : List ((FormState → Bool) × String) :=
  [ (fun ev => ev.title.trim = "", "Event title is required"),
    (fun ev => ev.date = none, "Event date is required"),
    (fun ev => ev.startTime = "", "Start time is required"),
    (fun ev => ev.endTime = "", "End time is required"),
    (fun ev => ev.endTime ≤ ev.startTime, "End time must be after start time"),
    (fun ev => ev.rtype = "weekly" && (ev.days = none || ev.days = some []),
      "Please select at least one day for weekly recurrence"),
    (fun ev => ev.rtype = "custom" && ev.interval.getD 0 < 1,
      "Custom recurrence interval must be at least 1") ]

/-- Spec-side description of `validateForm`: the message of the first rule
(in the fixed order) that fails, `none` if all pass. -/
def firstFailingMessage (ev : FormState) : Option String :=
  (validationRules.find? (fun r => r.1 ev)).map (fun r => r.2)

end EventFormNS

/-! ## Arithmetic facts about the JS-style division helpers -/

namespace Calendar

lemma jsRoundDiv_exact (k : Int) : jsRoundDiv (k * 86400000) 86400000 = k := by
  unfold jsRoundDiv
  rw [Int.fdiv_eq_ediv _ (by norm_num)]
  omega

lemma jsCeilDiv_exact (k t : Int) (h0 : 0 ≤ t) (h1 : t < 86400000) :
    jsCeilDiv (k * 86400000 - t) 86400000 = k := by
  unfold jsCeilDiv
  rw [Int.fdiv_eq_ediv _ (by norm_num)]
  omega

/-- The JS truncating `%` agrees with mathematical `mod` on the test
`== 0`. -/
lemma tmod_eq_zero_iff_emod (a v : Int) : Int.tmod a v = 0 ↔ a % v = 0 := by
  rw [← Int.dvd_iff_tmod_eq_zero, Int.dvd_iff_emod_eq_zero]

/-- When two dates carry the same time-of-day, their `getTime` difference
is exactly the calendar-day difference in milliseconds. -/
lemma getTime_sub_of_eq_msOfDay (a b : Date) (h : a.msOfDay = b.msOfDay) :
    b.getTime - a.getTime = dayDelta a b * 86400000 := by
  unfold Date.getTime dayDelta
  omega

end Calendar

/-! ## Concrete fixtures used by witnesses -/

namespace CalendarApp

open Calendar

/-- The spec's Event A: weekly on Mondays, anchored Monday 2024-06-03. -/
def eventA : Event :=
  { id := "1", title := "Team Meeting", date := ⟨2024, 6, 3, 0⟩,
    startTime := "09:00", endTime := "10:00", description := none,
    color := some "green",
    recurrence := some ⟨"weekly", some ["Monday"], none, none⟩ }

/-- The spec's Event B: a single occurrence on 2024-06-05, 14:00–15:00. -/
def eventB : Event :=
  { id := "2", title := "Dentist", date := ⟨2024, 6, 5, 0⟩,
    startTime := "14:00", endTime := "15:00", description := none,
    color := none, recurrence := some ⟨"none", none, none, none⟩ }

/-- The spec's candidate C: 2024-06-05, 14:30–15:30. -/
def eventC : Event :=
  { id := "", title := "Candidate", date := ⟨2024, 6, 5, 0⟩,
    startTime := "14:30", endTime := "15:30", description := none,
    color := none, recurrence := none }

/-- A weekly event whose `days` list is empty. -/
def weeklyEmptyDays : Event :=
  { eventA with recurrence := some ⟨"weekly", some [], none, none⟩ }

/-- A daily event anchored 2024-06-03. -/
def dailyEvent : Event :=
  { eventA with recurrence := some ⟨"daily", none, none, none⟩ }

/-- A monthly event anchored on the 31st (2024-01-31). -/
def monthly31 : Event :=
  { eventA with
    date := ⟨2024, 1, 31, 0⟩
    recurrence := some ⟨"monthly", none, none, none⟩ }

/-- A custom every-2-weeks event anchored Monday 2024-06-03. -/
def custom2 : Event :=
  { eventA with recurrence := some ⟨"custom", none, some 2, none⟩ }

/-- An event with an unrecognized recurrence type. -/
def yearlyEvent : Event :=
  { eventA with recurrence := some ⟨"yearly", none, none, none⟩ }

end CalendarApp

namespace Claims

open Calendar CalendarApp

/-- **C6.** For every event whose recurrence rule has `type = "daily"`,
`occursOn` returns `true` for every day whatsoever — the `case "daily"`
branch of `getEventsForDay` is the constant `true`, with no lower bound at
the anchor date. -/
theorem daily_occurs_on_every_day (e : Event) (day : Date) (r : Recurrence)
    (hr : e.recurrence = some r) (ht : r.type = "daily") :
    occursOn e day = true := by
  simp [occursOn, hr, ht]

/-- Witness for C6 at a concrete input: the daily event anchored 2024-06-03
occurs on 1999-01-01, a day strictly before its anchor. -/
theorem daily_occurs_on_every_day_witness :
    occursOn dailyEvent ⟨1999, 1, 1, 0⟩ = true :=
  daily_occurs_on_every_day dailyEvent ⟨1999, 1, 1, 0⟩
    ⟨"daily", none, none, none⟩ rfl rfl

/-- **C7.** `occursOn` is a total function (it is a Lean `def` into `Bool`,
never failing), and for an event whose recurrence is absent, has
`type = "none"`, or any unrecognized type string, it returns exactly the
same-calendar-day test against the event's anchor date. -/
theorem unrecognized_type_is_single_occurrence (e : Event) (day : Date)
    (h : ∀ r, e.recurrence = some r →
      r.type ≠ "daily" ∧ r.type ≠ "weekly" ∧ r.type ≠ "monthly" ∧
        r.type ≠ "custom") :
    occursOn e day = isSameDay e.date day := by
  cases hr : e.recurrence with
  | none => simp [occursOn, hr]
  | some r =>
    obtain ⟨h1, h2, h3, h4⟩ := h r hr
    by_cases hn : r.type = "none" <;> simp [occursOn, hr, hn, h1, h2, h3, h4]

/-- Witness for C7 at a concrete input: the `"yearly"`-typed event matches
exactly its own anchor day. -/
theorem unrecognized_type_is_single_occurrence_witness :
    occursOn yearlyEvent ⟨2024, 6, 3, 12⟩ = true ∧
    occursOn yearlyEvent ⟨2025, 6, 3, 0⟩ = false := by
  have h := unrecognized_type_is_single_occurrence yearlyEvent
  constructor
  · rw [h ⟨2024, 6, 3, 12⟩ (fun r hr => by cases hr; exact ⟨by decide,
      by decide, by decide, by decide⟩)]
    decide
  · rw [h ⟨2025, 6, 3, 0⟩ (fun r hr => by cases hr; exact ⟨by decide,
      by decide, by decide, by decide⟩)]
    decide

/-- **C8.** For a `"monthly"` event, `occursOn` is true exactly when the
day-of-month numeral of the queried day equals the anchor's; consequently
an event anchored on the 31st never occurs on any (valid) day of a 30-day
month, and occurs on the 31st of a 31-day month. -/
theorem monthly_matches_day_of_month (e : Event) (day : Date)
    (r : Recurrence) (hr : e.recurrence = some r) (ht : r.type = "monthly") :
    (occursOn e day = true ↔ day.day = e.date.day) ∧
    (e.date.day = 31 → daysInMonth day.year day.month = 30 →
      day.day ≤ daysInMonth day.year day.month → occursOn e day = false) ∧
    (e.date.day = 31 → daysInMonth day.year day.month = 31 → day.day = 31 →
      occursOn e day = true) := by
  have hocc : occursOn e day = decide (day.day = e.date.day) := by
    simp [occursOn, hr, ht]
  refine ⟨by rw [hocc]; simp, ?_, ?_⟩
  · intro h31 h30 hle
    rw [hocc, h30] at *
    have : ¬ (day.day = e.date.day) := by omega
    simp [this]
  · intro h31 _ hd
    rw [hocc]
    simp [hd, h31]

/-- Witness for C8 at concrete inputs: the event anchored 2024-01-31 does
not occur on 2024-04-30 (April has 30 days) and occurs on 2024-05-31. -/
theorem monthly_matches_day_of_month_witness :
    occursOn monthly31 ⟨2024, 4, 30, 0⟩ = false ∧
    occursOn monthly31 ⟨2024, 5, 31, 0⟩ = true := by
  have h1 := monthly_matches_day_of_month monthly31 ⟨2024, 4, 30, 0⟩
    ⟨"monthly", none, none, none⟩ (by rfl) (by rfl)
  have h2 := monthly_matches_day_of_month monthly31 ⟨2024, 5, 31, 0⟩
    ⟨"monthly", none, none, none⟩ (by rfl) (by rfl)
  exact ⟨h1.2.1 (by decide) (by decide) (by decide),
    h2.2.2 (by decide) (by decide) (by decide)⟩

/-- **C1 (counterexample).** The claim "weekly with an empty `days` set
matches every day whose weekday name equals the anchor's weekday name" is
false on the code: 2024-06-10 is a Monday, like the anchor 2024-06-03 of
`weeklyEmptyDays`, yet `occursOn` returns `false` there (the code falls
back to `isSameDay`, not to a weekday-name match). -/
theorem weekly_empty_days_weekday_match_refuted :
    dayName ⟨2024, 6, 10, 0⟩ = dayName (⟨2024, 6, 3, 0⟩ : Date) ∧
    weeklyEmptyDays.date = ⟨2024, 6, 3, 0⟩ ∧
    occursOn weeklyEmptyDays ⟨2024, 6, 10, 0⟩ = false := by
  refine ⟨by decide, rfl, by decide⟩

/-- **C1 (amended).** For a `"weekly"` event whose `days` is absent or
empty, `occursOn` degenerates to the same-calendar-day test against the
anchor: true on the anchor's own day (so never "no days at all"), false on
every other day — including other days of the anchor's weekday. -/
theorem weekly_empty_days_matches_anchor_day (e : Event) (day : Date)
    (r : Recurrence) (hr : e.recurrence = some r) (ht : r.type = "weekly")
    (hd : r.days = none ∨ r.days = some []) :
    occursOn e day = isSameDay e.date day ∧ occursOn e e.date = true := by
  have key : ∀ d : Date, occursOn e d = isSameDay e.date d := by
    intro d
    rcases hd with hd | hd <;> simp [occursOn, hr, ht, hd]
  exact ⟨key day, by rw [key e.date]; simp [isSameDay]⟩

/-- Witness for C1's amended statement at a concrete input. -/
theorem weekly_empty_days_matches_anchor_day_witness :
    occursOn weeklyEmptyDays ⟨2024, 6, 4, 0⟩ =
      isSameDay weeklyEmptyDays.date ⟨2024, 6, 4, 0⟩ ∧
    occursOn weeklyEmptyDays weeklyEmptyDays.date = true :=
  weekly_empty_days_matches_anchor_day weeklyEmptyDays ⟨2024, 6, 4, 0⟩
    ⟨"weekly", some [], none, none⟩ rfl rfl (Or.inr rfl)

end Claims

namespace Claims

open Calendar CalendarApp

/-- On the `"custom"` branch with a positive interval, `occursOn` computes
the JS expression `Math.floor(Math.round((day - anchor)/dayMs) / 7) %
interval === 0`; with equal times-of-day the rounded day difference is
exactly the calendar-day delta. -/
lemma occursOn_custom_eq (e : Event) (day : Date) (r : Recurrence) (v : Int)
    (hr : e.recurrence = some r) (ht : r.type = "custom")
    (hv : r.interval = some v) (hpos : 0 < v)
    (hms : e.date.msOfDay = day.msOfDay) :
    occursOn e day =
      decide (Int.tmod (Int.fdiv (dayDelta e.date day) 7) v = 0) := by
  have hdiff : day.getTime - e.date.getTime = dayDelta e.date day * 86400000 :=
    getTime_sub_of_eq_msOfDay e.date day hms
  simp [occursOn, hr, ht, hv, hpos, hdiff, jsRoundDiv_exact]

/-- **C3 (amended).** For a `"custom"` event with interval `v ≥ 1` and any
day with the same time-of-day as the anchor (in particular, any grid day
for a midnight-anchored event), `occursOn` is true exactly when
`floor(dayDelta(anchor, day) / 7) mod v = 0`; a missing or non-positive
interval always yields `false`.  For `v = 2` this gives the claimed 2-week
periodicity at every whole number of cycles forward and backward (true at
delta `14k`, false at delta `14k + 7`, for every integer `k`). -/
theorem custom_recurrence_week_interval (e : Event) (day : Date)
    (r : Recurrence) (hr : e.recurrence = some r) (ht : r.type = "custom")
    (hms : e.date.msOfDay = day.msOfDay) :
    (∀ v : Int, r.interval = some v → 1 ≤ v →
      (occursOn e day = true ↔ Int.fdiv (dayDelta e.date day) 7 % v = 0)) ∧
    (∀ v : Int, r.interval = some v → v < 1 → occursOn e day = false) ∧
    (r.interval = none → occursOn e day = false) ∧
    (r.interval = some 2 → ∀ k : Int,
      (dayDelta e.date day = 14 * k → occursOn e day = true) ∧
      (dayDelta e.date day = 14 * k + 7 → occursOn e day = false)) := by
  have main : ∀ v : Int, r.interval = some v → 1 ≤ v →
      (occursOn e day = true ↔ Int.fdiv (dayDelta e.date day) 7 % v = 0) := by
    intro v hv hge
    rw [occursOn_custom_eq e day r v hr ht hv (by omega) hms]
    simp [tmod_eq_zero_iff_emod]
  refine ⟨main, ?_, ?_, ?_⟩
  · intro v hv hlt
    have hng : ¬ (v > 0) := by omega
    simp [occursOn, hr, ht, hv, hng]
  · intro hvn
    simp [occursOn, hr, ht, hvn]
  · intro hv2 k
    have h2 := main 2 hv2 (by omega)
    constructor
    · intro hdelta
      rw [h2, hdelta, Int.fdiv_eq_ediv _ (by omega)]
      omega
    · intro hdelta
      have : ¬ (Int.fdiv (dayDelta e.date day) 7 % 2 = 0) := by
        rw [hdelta, Int.fdiv_eq_ediv _ (by omega)]
        omega
      cases hocc : occursOn e day with
      | false => rfl
      | true => exact absurd (h2.mp hocc) this

end Claims

namespace Claims

open Calendar CalendarApp

/-- Witness for C3 at concrete inputs: the every-2-weeks event anchored
Monday 2024-06-03 occurs two weeks later (2024-06-17, delta `14·1`) and
does not occur one week later (2024-06-10, delta `14·0 + 7`). -/
theorem custom_recurrence_week_interval_witness :
    occursOn custom2 ⟨2024, 6, 17, 0⟩ = true ∧
    occursOn custom2 ⟨2024, 6, 10, 0⟩ = false := by
  have h17 := custom_recurrence_week_interval custom2 ⟨2024, 6, 17, 0⟩
    ⟨"custom", none, some 2, none⟩ (by rfl) (by rfl) (by rfl)
  have h10 := custom_recurrence_week_interval custom2 ⟨2024, 6, 10, 0⟩
    ⟨"custom", none, some 2, none⟩ (by rfl) (by rfl) (by rfl)
  exact ⟨(h17.2.2.2 (by rfl) 1).1 (by decide),
    (h10.2.2.2 (by rfl) 0).2 (by decide)⟩

/-- **C2.** Both conflict checkers in `Home` return `true` exactly when
some stored event, other than the excluded one, has its *anchor* date on
the relevant calendar day (recurrence is never expanded) and a time range
overlapping the candidate's under the half-open rule
`candidateStart < existingEnd ∧ existingStart < candidateEnd`; and ranges
that exactly touch (`candidateStart = existingEnd`) never count as a
conflict. -/
theorem conflict_detection_characterization (events : List Event)
    (isNewEvent : Bool) (eventData event : Event) (targetDate : Date) :
    (checkForEventConflicts events isNewEvent eventData = true ↔
      ∃ e ∈ events, (isNewEvent = true ∨ e.id ≠ eventData.id) ∧
        sameDate e.date eventData.date = true ∧
        numLt (timeToMinutes eventData.startTime) (timeToMinutes e.endTime) = true ∧
        numLt (timeToMinutes e.startTime) (timeToMinutes eventData.endTime) = true) ∧
    (checkForConflicts events event targetDate = true ↔
      ∃ e ∈ events, e.id ≠ event.id ∧
        sameDate e.date targetDate = true ∧
        numLt (timeToMinutes event.startTime) (timeToMinutes e.endTime) = true ∧
        numLt (timeToMinutes e.startTime) (timeToMinutes event.endTime) = true) ∧
    (∀ e : Event, timeToMinutes eventData.startTime = timeToMinutes e.endTime →
      timesOverlap eventData e = false) := by
  refine ⟨?_, ?_, ?_⟩
  · simp only [checkForEventConflicts, List.any_eq_true, List.mem_filter,
      timesOverlap, Bool.and_eq_true]
    constructor
    · rintro ⟨e, ⟨he, hp⟩, h1, h2⟩
      have hps : (isNewEvent = true ∨ e.id ≠ eventData.id) ∧
          sameDate e.date eventData.date = true := by
        cases isNewEvent with
        | true =>
          simp only [Bool.not_true] at hp
          simp at hp
          exact ⟨Or.inl rfl, hp⟩
        | false =>
          by_cases hid : e.id = eventData.id
          · simp [hid] at hp
          · simp [hid] at hp
            exact ⟨Or.inr hid, hp⟩
      exact ⟨e, he, hps.1, hps.2, h1, h2⟩
    · rintro ⟨e, he, hx, hs, h1, h2⟩
      refine ⟨e, ⟨he, ?_⟩, h1, h2⟩
      cases isNewEvent with
      | true => simpa using hs
      | false =>
        rcases hx with hx | hx
        · exact absurd hx (by simp)
        · simpa [hx] using hs
  · simp only [checkForConflicts, List.any_eq_true, List.mem_filter,
      timesOverlap, Bool.and_eq_true]
    constructor
    · rintro ⟨e, ⟨he, hp⟩, h1, h2⟩
      by_cases hid : e.id = event.id
      · simp [hid] at hp
      · simp [hid] at hp
        exact ⟨e, he, hid, hp, h1, h2⟩
    · rintro ⟨e, he, hid, hs, h1, h2⟩
      refine ⟨e, ⟨he, ?_⟩, h1, h2⟩
      simp [hid, hs]
  · intro e h
    unfold timesOverlap numLt
    rw [h]
    cases timeToMinutes e.endTime with
    | none => rfl
    | some y => simp

end Claims

namespace Claims

open Calendar CalendarApp

/-- Witness for C2 at the spec's concrete scenario: candidate C
(2024-06-05, 14:30–15:30) conflicts with stored B (same day, 14:00–15:00);
a candidate starting exactly at B's end (15:00–16:00) does not. -/
theorem conflict_detection_characterization_witness :
    checkForEventConflicts [eventB] true eventC = true ∧
    checkForEventConflicts [eventB] true
      { eventC with startTime := "15:00", endTime := "16:00" } = false := by
  have h1 := (conflict_detection_characterization [eventB] true eventC
    eventC ⟨2024, 6, 5, 0⟩).1
  have h2 := (conflict_detection_characterization [eventB] true
    { eventC with startTime := "15:00", endTime := "16:00" }
    eventC ⟨2024, 6, 5, 0⟩).1
  constructor
  · exact h1.mpr ⟨eventB, by decide, Or.inl rfl, by decide, by decide, by decide⟩
  · cases hres : checkForEventConflicts [eventB] true
      { eventC with startTime := "15:00", endTime := "16:00" } with
    | false => rfl
    | true =>
      obtain ⟨e, he, -, -, hlt, -⟩ := h2.mp hres
      have : e = eventB := by
        cases he with
        | head => rfl
        | tail _ h => cases h
      rw [this] at hlt
      exact absurd hlt (by decide)

/-- **C4.** `updateEventDate` in `Home` (the drag-relocation commit) maps
the matching event to a copy whose `date` is the original anchor shifted by
exactly `dayDelta(event.date, newDay)` whole days; `Date.addDays` preserves
the time-of-day, and the record update touches no field but `date`, so id,
title, startTime, endTime, description, color and the entire recurrence
rule (including `days`) are unchanged, and other events are untouched. -/
theorem drag_shifts_anchor_by_day_delta (events : List Event)
    (eventId : String) (newDay : Date) (hnd : newDay.msOfDay = 0)
    (hms : ∀ e ∈ events, 0 ≤ e.date.msOfDay ∧ e.date.msOfDay < 86400000) :
    updateEventDate events eventId newDay =
      events.map (fun e =>
        if e.id = eventId then
          { e with date := e.date.addDays (dayDelta e.date newDay) }
        else e) ∧
    (∀ (d : Date) (n : Int), (d.addDays n).msOfDay = d.msOfDay) ∧
    (∀ (e : Event) (d : Date),
      ({ e with date := d } : Event).id = e.id ∧
      ({ e with date := d } : Event).title = e.title ∧
      ({ e with date := d } : Event).startTime = e.startTime ∧
      ({ e with date := d } : Event).endTime = e.endTime ∧
      ({ e with date := d } : Event).description = e.description ∧
      ({ e with date := d } : Event).color = e.color ∧
      ({ e with date := d } : Event).recurrence = e.recurrence) := by
  refine ⟨?_, fun d n => rfl, fun e d => ⟨rfl, rfl, rfl, rfl, rfl, rfl, rfl⟩⟩
  unfold updateEventDate
  apply List.map_congr_left
  intro e he
  by_cases hid : e.id = eventId
  · obtain ⟨h0, h1⟩ := hms e he
    have hdiff : newDay.getTime - e.date.getTime =
        dayDelta e.date newDay * 86400000 - e.date.msOfDay := by
      unfold Date.getTime dayDelta
      omega
    simp only [hid, if_true]
    rw [hdiff, jsCeilDiv_exact _ _ h0 h1]
  · simp [hid]

/-- Witness for C4 at the spec's scenario: dragging Event A (anchored
Monday 2024-06-03, weekly on Mondays) to 2024-06-05 re-anchors it on
2024-06-05 with `recurrence.days` still `["Monday"]`. -/
theorem drag_shifts_anchor_by_day_delta_witness :
    updateEventDate [eventA] "1" ⟨2024, 6, 5, 0⟩ =
      [{ eventA with date := ⟨2024, 6, 5, 0⟩ }] ∧
    ({ eventA with date := ⟨2024, 6, 5, 0⟩ } : Event).recurrence =
      some ⟨"weekly", some ["Monday"], none, none⟩ := by
  have h := (drag_shifts_anchor_by_day_delta [eventA] "1" ⟨2024, 6, 5, 0⟩
    rfl (by decide)).1
  rw [h]
  exact ⟨by decide, by decide⟩

/-- **C5 (counterexample).** The claim "for every string not parseable as
two in-range colon-separated integers, the function fails rather than
returning a number" is false on the code: `"99:99"` is out of range, yet
`timeToMinutes` returns the plain number 6039 (and 6039 lies outside
`[0, 1439]`). -/
theorem time_to_minutes_no_failure_on_out_of_range :
    timeToMinutes "99:99" = some 6039 ∧ ¬ (6039 : Int) ≤ 1439 := by
  exact ⟨by decide, by decide⟩

/-- **C5 (amended).** `timeToMinutes` returns `hours * 60 + minutes`
whenever the first two colon-separated fields both parse as numbers — with
no range validation and no failure — and the result lies in `[0, 1439]`
when the fields are in range (`0 ≤ h ≤ 23`, `0 ≤ m ≤ 59`); only a missing
or non-numeric field yields NaN (modelled `none`), never an error. -/
theorem time_to_minutes_unvalidated (t fh fm : String) (hv mv : Int)
    (h0 : (jsSplitColon t).get? 0 = some fh)
    (h1 : (jsSplitColon t).get? 1 = some fm)
    (hh : jsNumber fh = some hv) (hm : jsNumber fm = some mv) :
    timeToMinutes t = some (hv * 60 + mv) ∧
    (0 ≤ hv → hv ≤ 23 → 0 ≤ mv → mv ≤ 59 →
      0 ≤ hv * 60 + mv ∧ hv * 60 + mv ≤ 1439) := by
  constructor
  · have h0' : (jsSplitColon t)[0]? = some fh := by simpa using h0
    have h1' : (jsSplitColon t)[1]? = some fm := by simpa using h1
    simp [timeToMinutes, h0', h1', hh, hm]
  · intro a b c d
    omega

/-- Witness for C5's amended statement at a concrete input. -/
theorem time_to_minutes_unvalidated_witness :
    timeToMinutes "14:30" = some (14 * 60 + 30) ∧
    (0 ≤ (14 : Int) * 60 + 30 ∧ (14 : Int) * 60 + 30 ≤ 1439) := by
  have h := time_to_minutes_unvalidated "14:30" "14" "30" 14 30
    (by decide) (by decide) (by decide) (by decide)
  exact ⟨h.1, h.2 (by decide) (by decide) (by decide) (by decide)⟩

end Claims

namespace Claims

open Calendar CalendarApp EventFormNS

/-- **C9.** Saving from the event form is forwarded to `onSave` exactly
when `validateForm` reports no failure, and `validateForm` returns the
message of the *first* failing rule in the fixed order: empty title,
missing date, missing start time, missing end time, end time not after
start time, weekly recurrence with zero selected days, custom recurrence
with interval below 1 — so the reported message is deterministic. -/
theorem validation_first_failing_rule (ev : FormState) :
    (saveProceeds ev = true ↔ validateForm ev = none) ∧
    validateForm ev = firstFailingMessage ev := by
  constructor
  · simp [saveProceeds, Option.isNone_iff_eq_none]
  · unfold validateForm firstFailingMessage validationRules
    by_cases c1 : ev.title.trim = ""
    · simp [List.find?, c1]
    · by_cases c2 : ev.date = none
      · simp [List.find?, c1, c2]
      · by_cases c3 : ev.startTime = ""
        · simp [List.find?, c1, c2, c3]
        · by_cases c4 : ev.endTime = ""
          · simp [List.find?, c1, c2, c3, c4]
          · by_cases c5 : ev.endTime ≤ ev.startTime
            · simp [List.find?, c1, c2, c3, c4, c5]
            · by_cases c6a : ev.rtype = "weekly" <;>
              by_cases c6b : ev.days = none <;>
              by_cases c6c : ev.days = some [] <;>
              by_cases c7a : ev.rtype = "custom" <;>
              by_cases c7b : ev.interval.getD 0 < 1 <;>
              simp [List.find?, c1, c2, c3, c4, c5, c6a, c6b, c6c, c7a, c7b]

/-- **C10.** When no host `onDragEvent` is supplied, dropping event
`eventId` on day `d` builds `{ ...event, date: d }` — the `date` field is
replaced with the drop day itself (so the updated date carries the drop
day's time-of-day, not the original's; no day-delta shift is applied) —
and commits it through `handleAddEvent`, whose two branches (replace by
the selected id in edit mode, append otherwise) consult no conflict check:
the committed list is fully determined by ids and the drop day,
independent of any time overlap. -/
theorem self_managed_drop_replaces_date (eventsToUse localEvents : List Event)
    (isEditMode : Bool) (selectedEvent : Option Event)
    (freshId eventId : String) (d : Date) (ev : Event)
    (hfind : eventsToUse.find? (fun e => e.id = eventId) = some ev) :
    onDropSelf eventsToUse localEvents isEditMode selectedEvent freshId
        eventId d =
      handleAddEvent localEvents isEditMode selectedEvent freshId
        { ev with date := d } ∧
    ({ ev with date := d } : Event).date = d ∧
    ({ ev with date := d } : Event).date.msOfDay = d.msOfDay ∧
    ({ ev with date := d } : Event).id = ev.id ∧
    ({ ev with date := d } : Event).title = ev.title ∧
    ({ ev with date := d } : Event).startTime = ev.startTime ∧
    ({ ev with date := d } : Event).endTime = ev.endTime ∧
    ({ ev with date := d } : Event).description = ev.description ∧
    ({ ev with date := d } : Event).color = ev.color ∧
    ({ ev with date := d } : Event).recurrence = ev.recurrence := by
  refine ⟨?_, rfl, rfl, rfl, rfl, rfl, rfl, rfl, rfl, rfl⟩
  simp [onDropSelf, hfind]

/-- Witness for C10 at a concrete input: dropping Event A (anchored
2024-06-03 with a time-of-day of 10:00) on 2024-06-05 midnight stores the
event dated 2024-06-05 at midnight — the whole `Date` is replaced. -/
theorem self_managed_drop_replaces_date_witness :
    onDropSelf [{ eventA with date := ⟨2024, 6, 3, 36000000⟩ }] [] false none
        "99" "1" ⟨2024, 6, 5, 0⟩ =
      handleAddEvent [] false none "99"
        { eventA with date := ⟨2024, 6, 5, 0⟩ } ∧
    ({ eventA with date := (⟨2024, 6, 5, 0⟩ : Date) } : Event).date.msOfDay = 0 := by
  have h := self_managed_drop_replaces_date
    [{ eventA with date := ⟨2024, 6, 3, 36000000⟩ }] [] false none "99" "1"
    ⟨2024, 6, 5, 0⟩ { eventA with date := ⟨2024, 6, 3, 36000000⟩ } (by decide)
  exact ⟨h.1, rfl⟩

end Claims

namespace Claims

open Calendar CalendarApp

/-- **C3 (counterexample).** The claim "for every custom event with
interval ≥ 1 and every day, `occursOn` is true iff
`floor(dayDelta(anchor, day) / 7) mod interval = 0` — in particular true
on the anchor date" is false on the code: for the interval-2 event
anchored 2024-06-03 at 13:00, queried on its own anchor calendar day at
midnight (as the grid does), `dayDelta` is 0 and `floor(0/7) mod 2 = 0`,
so the claim requires `true`; but the code rounds the millisecond
difference — `Math.round(-46800000 / 86400000) = -1`, `floor(-1/7) = -1`,
`-1 % 2 ≠ 0` — and returns `false`. -/
theorem custom_recurrence_day_delta_refuted :
    isSameDay (⟨2024, 6, 3, 46800000⟩ : Date) ⟨2024, 6, 3, 0⟩ = true ∧
    dayDelta (⟨2024, 6, 3, 46800000⟩ : Date) ⟨2024, 6, 3, 0⟩ = 0 ∧
    Int.fdiv (0 : Int) 7 % 2 = 0 ∧
    occursOn { custom2 with date := ⟨2024, 6, 3, 46800000⟩ }
      ⟨2024, 6, 3, 0⟩ = false := by
  refine ⟨by decide, by decide, by decide, by decide⟩

end Claims
